import Mathlib

/-!
Verification development for the INDRA statement-assembly pipeline.

The repository's source tree contains the JSON schema of the data model and
the test suites for the assembly pipeline (`assemble_corpus`) and the
sklearn-based belief model.  The executable pipeline itself is not part of
the tree, so each operation below is modelled from the specification's
description of the pipeline (preassembly, grounding mapping, sequence
mapping, belief scoring, curation-based filtering), shallowly embedded as
computable Lean functions over the data model of the JSON schema.
-/

set_option maxRecDepth 40000

namespace Indra

/-- Modelled from the spec and the JSON schema (the pipeline code itself is
absent from the tree): a post-translational modification condition of an
Agent, with a modification type, an optional residue, an optional
position and a modified flag. -/
structure ModCondition where
  mod_type : String
  residue : Option String
  position : Option String
  is_modified : Bool
deriving DecidableEq

/-- Modelled from the spec: an Agent is a molecular entity with a name and
cross-database groundings (db_refs), plus modification conditions. -/
structure Agent where
  name : String
  db_refs : List (String × String)
  mods : List ModCondition
deriving DecidableEq

/-- Modelled from the spec and the JSON schema: a piece of Evidence with
its text and the extraction source (source_api). -/
structure Evidence where
  text : String
  source_api : String
deriving DecidableEq

/-- Modelled from the spec: a Statement is a typed assertion between
Agents (for two-agent statements an optional subject/enzyme and an
object/substrate), optionally carrying a modification site
(residue/position), supporting Evidence, a scalar belief, and
supports/supported_by links into the preassembly hierarchy.  Links are
represented by the hashes of the linked statements. -/
structure Statement where
  stmt_type : String
  enz : Option Agent
  sub : Agent
  residue : Option String
  position : Option String
  evidence : List Evidence
  belief : ℚ
  supports : List Nat
  supported_by : List Nat
deriving DecidableEq

instance : Inhabited Statement :=
  ⟨⟨"Phosphorylation", none, ⟨"", [], []⟩, none, none, [], 0, [], []⟩⟩

/-- Association-list lookup in db_refs-style maps. -/
def lookupRef (k : String) (l : List (String × String)) : Option String :=
  (l.find? (fun p => p.1 == k)).map (fun p => p.2)

/-- A simple injective-enough string code used to model Python hashing. -/
def strCode (s : String) : Nat :=
  s.data.foldl (fun a c => a * 131 + c.toNat + 1) 7

/-- Encoding of an optional string for hashing purposes. -/
def optEnc : Option String → String
  | none => "-"
  | some s => "+" ++ s

/-- Encoding of a modification condition for hashing purposes. -/
def ModCondition.enc (m : ModCondition) : String :=
  m.mod_type ++ ";" ++ optEnc m.residue ++ ";" ++ optEnc m.position ++ ";" ++
    (if m.is_modified then "1" else "0")

/-- Encoding of an agent for hashing purposes. -/
def Agent.enc (a : Agent) : String :=
  a.name ++ "<" ++
    String.intercalate "," (a.db_refs.map (fun p => p.1 ++ ":" ++ p.2)) ++ "<" ++
    String.intercalate "," (a.mods.map ModCondition.enc)

/-- Encoding of the matches-key of a statement: its type, agents and site,
ignoring evidence, belief and hierarchy links. -/
def Statement.encKey (s : Statement) : String :=
  s.stmt_type ++ ">" ++
    (match s.enz with | none => "-" | some a => "+" ++ a.enc) ++ ">" ++
    s.sub.enc ++ ">" ++ optEnc s.residue ++ ">" ++ optEnc s.position

/-- Modelled from the spec: the matches-key hash of a statement, used by
deduplication and by evidence-level curations (pa_hash). -/
def Statement.get_hash (s : Statement) : Nat :=
  strCode s.encKey

/-- Modelled from the spec: the source hash of an evidence, used by
evidence-level curations (source_hash). -/
def Evidence.get_source_hash (ev : Evidence) : Nat :=
  strCode (ev.source_api ++ "|" ++ ev.text)

/-- The content of a statement that determines equivalence for
preassembly: everything except evidence, belief and links. -/
def Statement.key (s : Statement) : Statement :=
  { s with evidence := [], belief := 0, supports := [], supported_by := [] }

/-- Modelled from the spec: `filter_belief` keeps exactly the statements
whose belief is at least the threshold, in their original order. -/
def filter_belief (stmts : List Statement) (t : ℚ) : List Statement :=
  stmts.filter (fun s => decide (t ≤ s.belief))

/-! ### Test fixtures mirrored from `test_assemble_corpus.py` -/

/-- Fixture agent `a` of the assemble-corpus test suite. -/
def agA : Agent := ⟨"a", [("HGNC", "1234"), ("TEXT", "a")], []⟩

/-- Fixture agent `b` of the assemble-corpus test suite. -/
def agB : Agent := ⟨"b", [("UP", "P15056"), ("TEXT", "b")], []⟩

/-- Fixture agent `c` of the assemble-corpus test suite. -/
def agC : Agent := ⟨"c", [("FPLX", "XXX"), ("TEXT", "c")], []⟩

/-- Fixture agent `d` of the assemble-corpus test suite. -/
def agD : Agent := ⟨"d", [("TEXT", "d")], []⟩

/-- Fixture statement `st1 = Phosphorylation(a, b)` with belief 0.9. -/
def st1 : Statement :=
  ⟨"Phosphorylation", some agA, agB, none, none,
    [⟨"a->b", "assertion"⟩], mkRat 9 10, [], []⟩

/-- Fixture statement `st2 = Phosphorylation(a, d)` with belief 0.8. -/
def st2 : Statement :=
  ⟨"Phosphorylation", some agA, agD, none, none,
    [⟨"a->d", "assertion"⟩], mkRat 8 10, [], []⟩

/-- Fixture statement `st3 = Phosphorylation(c, d)` with belief 0.7. -/
def st3 : Statement :=
  ⟨"Phosphorylation", some agC, agD, none, none,
    [⟨"c->d", "assertion"⟩], mkRat 7 10, [], []⟩

/-- Fixture statement `st5 = Phosphorylation(None, b)`. -/
def st5 : Statement :=
  ⟨"Phosphorylation", none, agB, none, none,
    [⟨"->b", "assertion"⟩], mkRat 1 1, [], []⟩

/-- Fixture statement `st6 = Phosphorylation(None, d)`. -/
def st6 : Statement :=
  ⟨"Phosphorylation", none, agD, none, none,
    [⟨"->d", "assertion"⟩], mkRat 1 1, [], []⟩

/-! ### Preassembly -/

/-- Modelled from the spec: statement `x` refines statement `y` (is at
least as specific) when they have the same type and object agent and every
detail of `y` (subject agent, residue, position) is either unspecified in
`y` or agrees with `x`. -/
def refinesB (x y : Statement) : Bool :=
  x.stmt_type == y.stmt_type && decide (x.sub = y.sub) &&
    (y.enz.isNone || decide (x.enz = y.enz)) &&
    (y.residue.isNone || decide (x.residue = y.residue)) &&
    (y.position.isNone || decide (x.position = y.position))

/-- Strict refinement: `x` refines `y` and the two are not equivalent. -/
def strictRefines (x y : Statement) : Bool :=
  refinesB x y && !(decide (x.key = y.key))

/-- Merge a statement into a list of equivalence-class representatives:
an equivalent representative absorbs its evidence, otherwise the
statement starts a new class. -/
def addToGroup : List Statement → Statement → List Statement
  | [], s => [s]
  | t :: rest, s =>
      if t.key = s.key then
        { t with evidence := t.evidence ++ s.evidence } :: rest
      else
        t :: addToGroup rest s

/-- Modelled from the spec: collapse equivalent statements, concatenating
their evidence onto the first representative of each equivalence class. -/
def combineDuplicates (stmts : List Statement) : List Statement :=
  stmts.foldl addToGroup []

/-- Populate the supports/supported_by links of one statement relative to
a deduplicated list: a statement is supported by the more generic
statements it strictly refines, and supports the more specific
statements that strictly refine it. -/
def linkOne (uniq : List Statement) (s : Statement) : Statement :=
  { s with
    supported_by :=
      (uniq.filter (fun g => strictRefines s g)).map Statement.get_hash,
    supports :=
      (uniq.filter (fun x => strictRefines x s)).map Statement.get_hash }

/-- Populate the supports/supported_by links of each statement of a
deduplicated list. -/
def addLinks (uniq : List Statement) : List Statement :=
  uniq.map (linkOne uniq)

/-- Collect the flattened evidence of a statement from the statements its
links point at (`supported_by` links by default, or `supports`). -/
def flattenEv (collect : String) (all : List Statement) (s : Statement) :
    Statement :=
  let links := if collect == "supports" then s.supports else s.supported_by
  { s with
    evidence := s.evidence ++
      (all.filter (fun t => links.contains t.get_hash)).flatMap
        (fun t => t.evidence) }

/-- Modelled from the spec: the full preassembly hierarchy of a list of
statements; equivalent statements are collapsed and the survivors are
linked by supports/supported_by according to refinement. -/
def preassemblyHierarchy (stmts : List Statement) : List Statement :=
  addLinks (combineDuplicates stmts)

/-- Modelled from the spec: `run_preassembly` builds the hierarchy,
optionally flattens evidence along the links, and by default
(`return_toplevel = true`) keeps only the top-level statements — those
not refined by any more specific statement, i.e. with no supports. -/
def run_preassembly (stmts : List Statement) (return_toplevel : Bool)
    (flatten_evidence : Bool) (collect_from : String) : List Statement :=
  let uniq := preassemblyHierarchy stmts
  let flat := if flatten_evidence then uniq.map (flattenEv collect_from uniq)
              else uniq
  if return_toplevel then flat.filter (fun s => s.supports.isEmpty) else flat

/-! ### Belief model over evidence-source counts -/

/-- Modelled from the spec: a learned classifier over evidence-source
counts, wrapped with the source list and featurisation flags.  The fitted
sklearn model is abstracted as a function from a feature row to the
probabilities of the negative and positive class. -/
structure CountsModel where
  modelFn : List Nat → ℚ × ℚ
  source_list : List String
  use_stmt_type : Bool
  use_num_members : Bool
  stmt_type_map : List String

/-- The number of evidences of a statement whose source_api is the given
source. -/
def countSource (s : Statement) (src : String) : Nat :=
  (s.evidence.filter (fun ev => ev.source_api == src)).length

/-- The number of agents of a statement. -/
def numMembers (s : Statement) : Nat :=
  (if s.enz.isSome then 1 else 0) + 1

/-- One-hot encoding of the statement type over the model's type map. -/
def oneHotType (cw : CountsModel) (s : Statement) : List Nat :=
  cw.stmt_type_map.map (fun t => if t == s.stmt_type then 1 else 0)

/-- The feature row of one statement: evidence counts per source, then
optionally the one-hot statement type, then optionally the number of
members. -/
def stmtRow (cw : CountsModel) (s : Statement) : List Nat :=
  cw.source_list.map (countSource s) ++
    (if cw.use_stmt_type then oneHotType cw s else []) ++
    (if cw.use_num_members then [numMembers s] else [])

/-- Modelled from the spec: `stmts_to_matrix` turns a list of statements
into the matrix of their feature rows. -/
def stmts_to_matrix (cw : CountsModel) (stmts : List Statement) :
    List (List Nat) :=
  stmts.map (stmtRow cw)

/-- Modelled from the spec: per-statement class probabilities of the
fitted model. -/
def predict_proba (cw : CountsModel) (stmts : List Statement) :
    List (ℚ × ℚ) :=
  (stmts_to_matrix cw stmts).map cw.modelFn

/-- Modelled from the spec: a pluggable belief scorer wrapping a fitted
counts model. -/
structure SklearnScorer where
  cw : CountsModel

/-- The score of one statement: the model's positive-class probability of
its feature row. -/
def SklearnScorer.score (sc : SklearnScorer) (s : Statement) : ℚ :=
  (sc.cw.modelFn (stmtRow sc.cw s)).2

/-- Modelled from the spec: the belief engine holding a pluggable
scorer. -/
structure BeliefEngine where
  scorer : SklearnScorer

/-- Modelled from the spec: `set_prior_probs` sets each statement's
belief to the scorer's score. -/
def set_prior_probs (be : BeliefEngine) (stmts : List Statement) :
    List Statement :=
  stmts.map (fun s => { s with belief := be.scorer.score s })

/-- The sum of column `j` of a matrix of naturals. -/
def colSum (m : List (List Nat)) (j : Nat) : Nat :=
  (m.map (fun r => r.getD j 0)).sum

/-- Modelled from the spec: the statement DataFrame of the sklearn
wrapper, with its column names and, per row, the evidence counts keyed by
source (the content of the `source_counts` column). -/
structure StmtDataFrame where
  cols : List String
  src_counts : List (List (String × Nat))

/-- The columns every statement DataFrame must carry. -/
def required_cols : List String :=
  ["stmt_type", "agA_ns", "agA_id", "agA_name", "agB_ns", "agB_id",
   "agB_name"]

/-- Modelled from the spec: `df_to_matrix` validates the DataFrame
columns and builds the feature matrix; it fails when the model was
built with `use_num_members`, when a required column is missing, or when
neither a `source_counts` column nor one column per model source is
present. -/
def df_to_matrix (cw : CountsModel) (df : StmtDataFrame) :
    Except String (List (List Nat)) :=
  if cw.use_num_members = true then
    Except.error "use_num_members not supported for DataFrame"
  else if required_cols.all (fun c => df.cols.contains c) = false then
    Except.error "DataFrame is missing required columns"
  else if (df.cols.contains "source_counts" ||
           cw.source_list.all (fun src => df.cols.contains src)) = false then
    Except.error "DataFrame has no source_counts and no source columns"
  else
    Except.ok (df.src_counts.map (fun row =>
      cw.source_list.map (fun src =>
        ((row.find? (fun p => p.1 == src)).map (fun p => p.2)).getD 0)))

/-- Modelled from the spec: fitting the counts model on a DataFrame
first converts it to a matrix, propagating its errors. -/
def CountsModel.fit_df (cw : CountsModel) (df : StmtDataFrame) :
    Except String Unit :=
  (df_to_matrix cw df).map (fun _ => ())

/-- Whether an exceptional computation succeeded. -/
def exOk {α : Type} : Except String α → Bool
  | Except.ok _ => true
  | Except.error _ => false

/-- A stand-in fitted classifier for concrete instances. -/
def lrFn : List Nat → ℚ × ℚ := fun _ => (mkRat 1 2, mkRat 1 2)

/-- A counts model over reach/sparser/signor, mirroring the sklearn test
suite. -/
def cwSig : CountsModel := ⟨lrFn, ["reach", "sparser", "signor"], false, false, []⟩

/-- A counts model over reach/sparser, mirroring the sklearn test suite. -/
def cwSrc2 : CountsModel := ⟨lrFn, ["reach", "sparser"], false, false, []⟩

/-- A counts model with `use_num_members` set, mirroring the sklearn test
suite. -/
def cwNm : CountsModel := ⟨lrFn, ["reach", "sparser", "signor"], false, true, []⟩

/-- A statement with a single signor evidence, mirroring the signor-only
test statements. -/
def stSig : Statement :=
  ⟨"Phosphorylation", some agA, agB, none, none,
    [⟨"t", "signor"⟩], mkRat 1 2, [], []⟩

/-- A statement DataFrame with all required columns and a source_counts
column, mirroring the sklearn test DataFrame. -/
def test_df : StmtDataFrame :=
  ⟨required_cols ++ ["source_counts"], [[("reach", 1)], [("sparser", 2)]]⟩

/-- Drop a column from a statement DataFrame. -/
def dropCol (df : StmtDataFrame) (c : String) : StmtDataFrame :=
  ⟨df.cols.filter (fun x => !(x == c)), df.src_counts⟩

/-- Add columns to a statement DataFrame. -/
def addCols (df : StmtDataFrame) (cs : List String) : StmtDataFrame :=
  ⟨df.cols ++ cs, df.src_counts⟩

/-! ### Curation-based evidence filtering -/

/-- Modelled from the spec: a human curation of one piece of evidence of
one statement, identified by statement hash and evidence source hash,
judging it correct (tag `correct`) or incorrect (any other tag). -/
structure Curation where
  pa_hash : Nat
  source_hash : Nat
  tag : String
deriving DecidableEq

/-- Whether a curation is about the given evidence of the given
statement. -/
def curMatches (c : Curation) (s : Statement) (ev : Evidence) : Bool :=
  c.pa_hash == s.get_hash && c.source_hash == ev.get_source_hash

/-- Whether some curation judges this evidence of this statement
correct. -/
def evCorrect (curs : List Curation) (s : Statement) (ev : Evidence) :
    Bool :=
  curs.any (fun c => curMatches c s ev && (c.tag == "correct"))

/-- Whether this evidence of this statement is judged incorrect: it has
an incorrect curation and no correct curation (a correct curation cancels
an incorrect one on the same evidence). -/
def evIncorrect (curs : List Curation) (s : Statement) (ev : Evidence) :
    Bool :=
  curs.any (fun c => curMatches c s ev && !(c.tag == "correct")) &&
    !(evCorrect curs s ev)

/-- Modelled from the spec: whether a statement survives curation-based
filtering.  Under policy `any` a statement is dropped when some evidence
is judged incorrect and no evidence of the statement is judged correct;
under policy `all` it is dropped when it has evidence and every evidence
is judged incorrect. -/
def keepByCuration (curs : List Curation) (policy : String)
    (s : Statement) : Bool :=
  if policy == "any" then
    !(s.evidence.any (evIncorrect curs s) &&
      !(s.evidence.any (evCorrect curs s)))
  else
    !(!(s.evidence.isEmpty) && s.evidence.all (evIncorrect curs s))

/-- Modelled from the tests of filter_by_curation: a kept statement with
at least one correctly-curated evidence has its incorrect evidences
removed (statements without a correct evidence keep their evidence
unchanged), and with `update_belief` its belief raised to 1. -/
def updateByCuration (curs : List Curation) (update_belief : Bool)
    (s : Statement) : Statement :=
  let hasCor := s.evidence.any (evCorrect curs s)
  { s with
    evidence :=
      if hasCor then s.evidence.filter (fun e => !(evIncorrect curs s e))
      else s.evidence,
    belief := if update_belief && hasCor then mkRat 1 1 else s.belief }

/-- Modelled from the spec: curation-based filtering of a statement
list. -/
def filter_by_curation (stmts : List Statement) (curs : List Curation)
    (policy : String) (update_belief : Bool) : List Statement :=
  (stmts.filter (keepByCuration curs policy)).map
    (updateByCuration curs update_belief)

/-- The first evidence of the fixture statement `st1`. -/
def evAB : Evidence := ⟨"a->b", "assertion"⟩

/-- The extra evidence appended to `new_st1` in the curation test. -/
def evABnew : Evidence := ⟨"a -> b", "new"⟩

/-- External evidence of the curation test, initially not attached to any
statement. -/
def evExt : Evidence := ⟨"a activates b", "external"⟩

/-- The curation-test statement: `st1` with a second evidence. -/
def new_st1 : Statement := { st1 with evidence := [evAB, evABnew] }

/-- The curation-test statement after appending the external evidence. -/
def new_st1_ext : Statement := { st1 with evidence := [evAB, evABnew, evExt] }

/-- Curation fixture: incorrect (grounding) curation of `evAB`. -/
def cur1 : Curation := ⟨new_st1.get_hash, evAB.get_source_hash, "grounding"⟩

/-- Curation fixture: incorrect (wrong_relation) curation of `evABnew`. -/
def cur2 : Curation :=
  ⟨new_st1.get_hash, evABnew.get_source_hash, "wrong_relation"⟩

/-- Curation fixture: correct curation of `evAB`. -/
def cur3 : Curation := ⟨new_st1.get_hash, evAB.get_source_hash, "correct"⟩

/-- Curation fixture: correct curation of st2's evidence. -/
def cur4 : Curation :=
  ⟨st2.get_hash, (Evidence.mk "a->d" "assertion").get_source_hash, "correct"⟩

/-- Curation fixture: correct curation of the external evidence. -/
def extCur : Curation :=
  ⟨new_st1.get_hash, evExt.get_source_hash, "correct"⟩

/-! ### Grounding mapping -/

/-- Modelled from the spec: the default grounding map from free-text
entity mentions to standard database identifiers (FamPlex entries for the
MEK and ERK families). -/
def grounding_map_default : List (String × List (String × String)) :=
  [("MEK", [("FPLX", "MEK")]), ("ERK", [("FPLX", "ERK")])]

/-- Modelled from the spec: the standardized name of a grounding — the
FamPlex entry of the mapped identifiers when present, otherwise the
agent's current name. -/
def standardName (refs : List (String × String)) (fallback : String) :
    String :=
  match lookupRef "FPLX" refs with
  | some n => n
  | none => fallback

/-- Modelled from the spec: ground one agent.  When the agent's TEXT
entry is in the grounding map, the mapped identifiers are added to its
db_refs, and the agent is renamed to the standardized name exactly when
`do_rename` is set. -/
def mapAgentGrounding (gm : List (String × List (String × String)))
    (do_rename : Bool) (a : Agent) : Agent :=
  match lookupRef "TEXT" a.db_refs with
  | none => a
  | some t =>
    match (gm.find? (fun p => p.1 == t)).map (fun p => p.2) with
    | none => a
    | some newrefs =>
      { a with
        db_refs := a.db_refs ++ newrefs,
        name := if do_rename then standardName newrefs a.name else a.name }

/-- Modelled from the spec: ground every agent of every statement. -/
def map_grounding (stmts : List Statement)
    (gm : List (String × List (String × String))) (do_rename : Bool) :
    List Statement :=
  stmts.map (fun s =>
    { s with
      enz := s.enz.map (mapAgentGrounding gm do_rename),
      sub := mapAgentGrounding gm do_rename s.sub })

/-- Fixture agent `MEK` of the grounding test. -/
def agMEK : Agent := ⟨"MEK", [("TEXT", "MEK")], []⟩

/-- Fixture agent `X` (mention text ERK) of the grounding test. -/
def agX : Agent := ⟨"X", [("TEXT", "ERK")], []⟩

/-- Fixture statement `Activation(MEK, X)` of the grounding test. -/
def stMG : Statement :=
  ⟨"Activation", some agMEK, agX, none, none, [], mkRat 1 2, [], []⟩

/-- The user-supplied grounding map of the grounding test. -/
def gmUser : List (String × List (String × String)) :=
  [("MEK", [("XXX", "YYY")]), ("ERK", [("FPLX", "ERK")])]

/-! ### Sequence (site) mapping -/

/-- Modelled from the spec: the curated list of valid modification sites
(UniProt id, residue, position) relevant to the tests. -/
def valid_sites : List (String × String × String) :=
  [("P28482", "T", "185")]

/-- Modelled from the spec: the curated site map.  An invalid site either
maps to its corrected residue/position or, when curated as erroneous with
a blank entry, to nothing. -/
def site_map :
    List ((String × String × String) × Option (String × String)) :=
  [(("P28482", "T", "182"), some ("T", "185")),
   (("P62753", "T", "389"), none)]

/-- Map one site: a valid site is returned unchanged, an invalid site is
mapped through the curated map, and an invalid site with no curated
mapping (absent, or present with a blank entry) yields nothing. -/
def mapSite (site : String × String × String) :
    Option (String × String) :=
  if valid_sites.contains site then some (site.2.1, site.2.2)
  else
    match site_map.find? (fun e => e.1 == site) with
    | some e => e.2
    | none => none

/-- Map the site of one modification condition of an agent with the given
UniProt grounding; conditions without a full site pass unchanged. -/
def mapMod (up : Option String) (m : ModCondition) :
    Option ModCondition :=
  match up, m.residue, m.position with
  | some u, some r, some p =>
    match mapSite (u, r, p) with
    | some rp => some { m with residue := some rp.1, position := some rp.2 }
    | none => none
  | _, _, _ => some m

/-- Map all modification sites of one agent. -/
def mapAgentSeq (a : Agent) : Option Agent :=
  (a.mods.mapM (mapMod (lookupRef "UP" a.db_refs))).map
    (fun ms => { a with mods := ms })

/-- Modelled from the spec: map every site of one statement — the sites
of its agents' modification conditions and its own target site; the
statement is dropped (`none`) when any site is invalid with no curated
mapping. -/
def mapStmtSeq (s : Statement) : Option Statement :=
  match (match s.enz with
         | none => some none
         | some a => (mapAgentSeq a).map some) with
  | none => none
  | some enz2 =>
    match mapAgentSeq s.sub with
    | none => none
    | some sub2 =>
      match lookupRef "UP" s.sub.db_refs, s.residue, s.position with
      | some u, some r, some p =>
        match mapSite (u, r, p) with
        | some rp =>
          some { s with enz := enz2, sub := sub2,
                        residue := some rp.1, position := some rp.2 }
        | none => none
      | _, _, _ => some { s with enz := enz2, sub := sub2 }

/-- Modelled from the spec: `map_sequence` over a statement list. -/
def map_sequence (stmts : List Statement) : List Statement :=
  stmts.filterMap mapStmtSeq

/-- Fixture agent MAPK1 of the sequence-mapping test. -/
def agMAPK1 : Agent := ⟨"MAPK1", [("UP", "P28482"), ("HGNC", "6871")], []⟩

/-- Fixture `Phosphorylation(None, MAPK1, T, 182)`. -/
def stT182 : Statement :=
  ⟨"Phosphorylation", none, agMAPK1, some "T", some "182", [],
    mkRat 1 2, [], []⟩

/-- Fixture `Phosphorylation(None, MAPK1, T, 185)`. -/
def stT185 : Statement :=
  ⟨"Phosphorylation", none, agMAPK1, some "T", some "185", [],
    mkRat 1 2, [], []⟩

/-- Fixture `Phosphorylation(None, MAPK1, Y, 999)`. -/
def stY999 : Statement :=
  ⟨"Phosphorylation", none, agMAPK1, some "Y", some "999", [],
    mkRat 1 2, [], []⟩

/-- Fixture agent MAPK1 of the blank-entries test. -/
def agMAPK1b : Agent := ⟨"MAPK1", [("UP", "P28482")], []⟩

/-- Fixture agent RPS6 of the blank-entries test. -/
def agRPS6 : Agent := ⟨"RPS6", [("UP", "P62753")], []⟩

/-- Fixture agent RPS6 phosphorylated at T389. -/
def agPhosRPS6 : Agent :=
  ⟨"RPS6", [("UP", "P62753")],
    [⟨"phosphorylation", some "T", some "389", true⟩]⟩

/-- Fixture `Phosphorylation(MAPK1, RPS6, T, 389)`. -/
def stBlank1 : Statement :=
  ⟨"Phosphorylation", some agMAPK1b, agRPS6, some "T", some "389", [],
    mkRat 1 2, [], []⟩

/-- Fixture `Phosphorylation(RPS6-pT389, MAPK1, T, 185)`. -/
def stBlank2 : Statement :=
  ⟨"Phosphorylation", some agPhosRPS6, agMAPK1b, some "T", some "185", [],
    mkRat 1 2, [], []⟩

/-! ### Statement serialization (dump/load) -/

/-- Modelled from the spec: the serialized form a statements pickle file
holds — a tree of primitive values. -/
inductive PVal where
  | pnat : Nat → PVal
  | pint : Int → PVal
  | pstr : String → PVal
  | pbool : Bool → PVal
  | parr : List PVal → PVal

/-- Encode an optional string. -/
def encOptStr : Option String → PVal
  | none => PVal.parr []
  | some s => PVal.parr [PVal.pstr s]

/-- Decode an optional string. -/
def decOptStr : PVal → Option (Option String)
  | PVal.parr [] => some none
  | PVal.parr [PVal.pstr s] => some (some s)
  | _ => none

/-- Encode a db_refs entry. -/
def encPair (p : String × String) : PVal :=
  PVal.parr [PVal.pstr p.1, PVal.pstr p.2]

/-- Decode a db_refs entry. -/
def decPair : PVal → Option (String × String)
  | PVal.parr [PVal.pstr a, PVal.pstr b] => some (a, b)
  | _ => none

/-- Decode every element of a serialized list, failing when any element
fails. -/
def decListWith {α : Type} (f : PVal → Option α) :
    List PVal → Option (List α)
  | [] => some []
  | v :: vs =>
    match f v, decListWith f vs with
    | some a, some rest => some (a :: rest)
    | _, _ => none

/-- Encode a modification condition. -/
def encMod (m : ModCondition) : PVal :=
  PVal.parr [PVal.pstr m.mod_type, encOptStr m.residue, encOptStr m.position,
    PVal.pbool m.is_modified]

/-- Decode a modification condition. -/
def decMod : PVal → Option ModCondition
  | PVal.parr [PVal.pstr t, rv, pv, PVal.pbool b] =>
    match decOptStr rv, decOptStr pv with
    | some r, some p => some ⟨t, r, p, b⟩
    | _, _ => none
  | _ => none

/-- Encode an agent. -/
def encAgent (a : Agent) : PVal :=
  PVal.parr [PVal.pstr a.name, PVal.parr (a.db_refs.map encPair),
    PVal.parr (a.mods.map encMod)]

/-- Decode an agent. -/
def decAgent : PVal → Option Agent
  | PVal.parr [PVal.pstr n, PVal.parr refs, PVal.parr mods] =>
    match decListWith decPair refs, decListWith decMod mods with
    | some rs, some ms => some ⟨n, rs, ms⟩
    | _, _ => none
  | _ => none

/-- Encode an optional agent. -/
def encOptAgent : Option Agent → PVal
  | none => PVal.parr []
  | some a => PVal.parr [encAgent a]

/-- Decode an optional agent. -/
def decOptAgent : PVal → Option (Option Agent)
  | PVal.parr [] => some none
  | PVal.parr [v] =>
    match decAgent v with
    | some a => some (some a)
    | none => none
  | _ => none

/-- Encode an evidence. -/
def encEv (e : Evidence) : PVal :=
  PVal.parr [PVal.pstr e.text, PVal.pstr e.source_api]

/-- Decode an evidence. -/
def decEv : PVal → Option Evidence
  | PVal.parr [PVal.pstr t, PVal.pstr s] => some ⟨t, s⟩
  | _ => none

/-- Encode a rational belief as numerator and denominator. -/
def encRat (q : ℚ) : PVal := PVal.parr [PVal.pint q.num, PVal.pnat q.den]

/-- Decode a rational belief. -/
def decRat : PVal → Option ℚ
  | PVal.parr [PVal.pint n, PVal.pnat d] => some (mkRat n d)
  | _ => none

/-- Decode a natural number. -/
def decNat : PVal → Option Nat
  | PVal.pnat n => some n
  | _ => none

/-- Encode a statement. -/
def encStmt (s : Statement) : PVal :=
  PVal.parr [PVal.pstr s.stmt_type, encOptAgent s.enz, encAgent s.sub,
    encOptStr s.residue, encOptStr s.position,
    PVal.parr (s.evidence.map encEv), encRat s.belief,
    PVal.parr (s.supports.map PVal.pnat),
    PVal.parr (s.supported_by.map PVal.pnat)]

/-- Decode a statement. -/
def decStmt : PVal → Option Statement
  | PVal.parr [PVal.pstr t, env, sbv, rv, pv, PVal.parr evs, bv,
      PVal.parr sup, PVal.parr supb] =>
    match decOptAgent env, decAgent sbv, decOptStr rv, decOptStr pv,
        decListWith decEv evs, decRat bv, decListWith decNat sup,
        decListWith decNat supb with
    | some enz, some sub, some r, some p, some evl, some b, some l1,
        some l2 => some ⟨t, enz, sub, r, p, evl, b, l1, l2⟩
    | _, _, _, _, _, _, _, _ => none
  | _ => none

/-- Modelled from the spec: `dump_statements` serializes a statement
list. -/
def dump_statements (stmts : List Statement) : PVal :=
  PVal.parr (stmts.map encStmt)

/-- Modelled from the spec: `load_statements` deserializes a statement
list. -/
def load_statements : PVal → Option (List Statement)
  | PVal.parr l => decListWith decStmt l
  | _ => none

/-- Modelled from the spec: deep statement equality. -/
def Statement.equals (s t : Statement) : Bool := decide (s = t)

/-! ### Theorems -/

/-- Hierarchy links of a statement are stable under linking. -/
theorem linkOne_get_hash (uniq : List Statement) (s : Statement) :
    (linkOne uniq s).get_hash = s.get_hash := rfl

/-- Strict refinement only reads the matches-key fields, so it is stable
under linking. -/
theorem strictRefines_linkOne (uniq : List Statement) (x y : Statement) :
    strictRefines (linkOne uniq x) (linkOne uniq y) = strictRefines x y := rfl

/-- Soundness and completeness of the supported_by links produced by
`addLinks`: every link of a statement points (by hash) at a statement of
the hierarchy that it strictly refines, and every strict refinement
within the hierarchy is linked. -/
theorem addLinks_supported_by_spec (uniq : List Statement) (s : Statement)
    (hs : s ∈ addLinks uniq) :
    (∀ h ∈ s.supported_by, ∃ g ∈ addLinks uniq,
        g.get_hash = h ∧ strictRefines s g = true) ∧
    (∀ g ∈ addLinks uniq, strictRefines s g = true →
        g.get_hash ∈ s.supported_by) := by
  rcases List.mem_map.mp hs with ⟨u, hu, rfl⟩
  constructor
  · intro h hh
    have hh' : h ∈ (uniq.filter (fun g => strictRefines u g)).map
        Statement.get_hash := hh
    rcases List.mem_map.mp hh' with ⟨g0, hg0, rfl⟩
    obtain ⟨hg0u, href⟩ := List.mem_filter.mp hg0
    exact ⟨linkOne uniq g0, List.mem_map_of_mem _ hg0u, rfl, href⟩
  · intro g hg hsg
    rcases List.mem_map.mp hg with ⟨g0, hg0, rfl⟩
    have href : strictRefines u g0 = true := hsg
    have : g0.get_hash ∈ (uniq.filter (fun g => strictRefines u g)).map
        Statement.get_hash :=
      List.mem_map_of_mem _ (List.mem_filter.mpr ⟨hg0, href⟩)
    exact this

/-- Claim C1: for every input list of Statements, `run_preassembly`
collapses equivalent and more-specific Statements into a hierarchy linked
by supports/supported_by (links are sound and complete for strict
refinement) and by default returns only the top-level statements of that
hierarchy; on the 4 fixture statements, where each of 2 specific
statements is subsumed by a generic one, it yields 2 top-level
statements, and with `return_toplevel = false` it returns all 4
statements of the hierarchy. -/
theorem c1_run_preassembly :
    (∀ stmts fe cf, run_preassembly stmts true fe cf =
        (run_preassembly stmts false fe cf).filter
          (fun s => s.supports.isEmpty)) ∧
    (∀ stmts : List Statement, ∀ s ∈ preassemblyHierarchy stmts,
        (∀ h ∈ s.supported_by, ∃ g ∈ preassemblyHierarchy stmts,
            g.get_hash = h ∧ strictRefines s g = true) ∧
        (∀ g ∈ preassemblyHierarchy stmts, strictRefines s g = true →
            g.get_hash ∈ s.supported_by)) ∧
    (run_preassembly [st1, st3, st5, st6] true false "supported_by").length
        = 2 ∧
    (run_preassembly [st1, st3, st5, st6] false false "supported_by").length
        = 4 ∧
    (run_preassembly [st1, st1, st3] true false "supported_by").length = 2 := by
  refine ⟨?_, ?_, by decide, by decide, by decide⟩
  · intro stmts fe cf
    rfl
  · intro stmts s hs
    exact addLinks_supported_by_spec (combineDuplicates stmts) s hs

/-- Witness for C1: the linked form of `st1` in the hierarchy of
`[st1, st5]` points by hash at the more generic `st5`, obtained by
applying the claim theorem at this concrete input. -/
theorem c1_run_preassembly_witness :
    ∃ g ∈ preassemblyHierarchy [st1, st5],
        g.get_hash = Statement.get_hash st5 ∧
        strictRefines ((preassemblyHierarchy [st1, st5]).getD 0 default) g
          = true := by
  have h := (c1_run_preassembly.2.1 [st1, st5]
      ((preassemblyHierarchy [st1, st5]).getD 0 default) (by decide)).1
      (Statement.get_hash st5) (by decide)
  exact h

/-- Claim C7: for every list of Statements carrying scalar beliefs and
every threshold, `filter_belief` returns exactly the statements whose
belief is at least the threshold, in their original order; on the three
fixture statements with beliefs 0.9, 0.8, 0.7 and threshold 0.75 it
returns the first two. -/
theorem c7_filter_belief :
    (∀ stmts t (s : Statement),
        s ∈ filter_belief stmts t ↔ s ∈ stmts ∧ t ≤ s.belief) ∧
    (∀ stmts t, (filter_belief stmts t).Sublist stmts) ∧
    filter_belief [st1, st2, st3] (mkRat 3 4) = [st1, st2] := by
  refine ⟨?_, ?_, by decide⟩
  · intro stmts t s
    simp [filter_belief, List.mem_filter]
  · intro stmts t
    exact List.filter_sublist stmts

/-- Claim C2: for every counts model wrapped in an SklearnScorer,
`BeliefEngine.set_prior_probs` sets each statement's belief to exactly
the model's predicted positive-class probability for that statement,
preserving the number and order of statements. -/
theorem c2_set_prior_probs :
    ∀ (cw : CountsModel) (stmts : List Statement),
      (set_prior_probs ⟨⟨cw⟩⟩ stmts).map Statement.belief =
          (predict_proba cw stmts).map Prod.snd ∧
      (set_prior_probs ⟨⟨cw⟩⟩ stmts).length = stmts.length := by
  intro cw stmts
  constructor
  · rw [set_prior_probs, predict_proba, stmts_to_matrix, List.map_map,
      List.map_map, List.map_map]
    rfl
  · simp [set_prior_probs]

/-- Column sum of the empty matrix. -/
theorem colSum_nil (j : Nat) : colSum [] j = 0 := rfl

/-- Column sum of a matrix with one more row. -/
theorem colSum_cons (r : List Nat) (m : List (List Nat)) (j : Nat) :
    colSum (r :: m) j = r.getD j 0 + colSum m j := by
  simp [colSum]

/-- The first `source_list.length` entries of a feature row are the
per-source evidence counts, whatever the featurisation flags. -/
theorem stmtRow_getD (cw : CountsModel) (s : Statement) (j : Nat)
    (hj : j < cw.source_list.length) :
    (stmtRow cw s).getD j 0 = countSource s (cw.source_list.getD j "") := by
  have hj1 : j < (cw.source_list.map (countSource s)).length := by simpa using hj
  rw [stmtRow, List.append_assoc, List.getD_append _ _ _ _ hj1]
  rw [List.getD_eq_getElem _ _ hj1, List.getElem_map,
    List.getD_eq_getElem _ _ hj]

/-- A statement whose single evidence comes from `src` counts 1 towards
`src` and 0 towards every other source. -/
theorem countSource_of_single (s : Statement) (src q : String)
    (h : s.evidence.map Evidence.source_api = [src]) :
    countSource s q = if src == q then 1 else 0 := by
  cases hev : s.evidence with
  | nil => rw [hev] at h; simp at h
  | cons e tl =>
    rw [hev] at h
    simp at h
    obtain ⟨h1, h2⟩ := h
    by_cases hq : src = q <;>
      simp [countSource, hev, h1, h2, hq]

/-- Column sum of a mapped matrix whose rows are constant in column
`j`. -/
theorem colSum_map_of_const (f : Statement → List Nat) (l : List Statement)
    (j v : Nat) (h : ∀ b ∈ l, (f b).getD j 0 = v) :
    colSum (l.map f) j = l.length * v := by
  induction l with
  | nil => simp [colSum]
  | cons b tl ih =>
    rw [List.map_cons, colSum_cons, h b (by simp),
      ih (fun x hx => h x (by simp [hx])), List.length_cons,
      Nat.succ_mul, Nat.add_comm]

/-- Claim C8: `stmts_to_matrix` over n statements and k sources is an
n-by-k matrix whose (i, j) entry counts the evidences of statement i
from source j; for statements all carrying one evidence from a single
source, that source's column sums to n and every other column to 0;
with `use_stmt_type` the rows instead have k plus the number of statement
types entries, and with `use_num_members` they have k+1 entries. -/
theorem c8_stmts_to_matrix :
    (∀ cw stmts, (stmts_to_matrix cw stmts).length = stmts.length) ∧
    (∀ cw : CountsModel, ∀ stmts, cw.use_stmt_type = false →
        cw.use_num_members = false →
        ∀ r ∈ stmts_to_matrix cw stmts, r.length = cw.source_list.length) ∧
    (∀ cw : CountsModel, ∀ s j, j < cw.source_list.length →
        (stmtRow cw s).getD j 0 = countSource s (cw.source_list.getD j "")) ∧
    (∀ cw : CountsModel, ∀ stmts src j, j < cw.source_list.length →
        (∀ s ∈ stmts, s.evidence.map Evidence.source_api = [src]) →
        (cw.source_list.getD j "" = src →
            colSum (stmts_to_matrix cw stmts) j = stmts.length) ∧
        (cw.source_list.getD j "" ≠ src →
            colSum (stmts_to_matrix cw stmts) j = 0)) ∧
    (∀ cw : CountsModel, ∀ stmts, cw.use_stmt_type = true →
        cw.use_num_members = false →
        ∀ r ∈ stmts_to_matrix cw stmts,
          r.length = cw.source_list.length + cw.stmt_type_map.length) ∧
    (∀ cw : CountsModel, ∀ stmts, cw.use_stmt_type = false →
        cw.use_num_members = true →
        ∀ r ∈ stmts_to_matrix cw stmts,
          r.length = cw.source_list.length + 1) := by
  refine ⟨?_, ?_, ?_, ?_, ?_, ?_⟩
  · intro cw stmts
    simp [stmts_to_matrix]
  · intro cw stmts h1 h2 r hr
    rcases List.mem_map.mp hr with ⟨s, hs, rfl⟩
    simp [stmtRow, h1, h2]
  · intro cw s j hj
    exact stmtRow_getD cw s j hj
  · intro cw stmts src j hj hall
    constructor
    · intro hsrc
      have hv : ∀ s ∈ stmts, (stmtRow cw s).getD j 0 = 1 := by
        intro s hs
        rw [stmtRow_getD cw s j hj, countSource_of_single s src _ (hall s hs),
          hsrc]
        simp
      rw [stmts_to_matrix, colSum_map_of_const _ _ _ 1 hv, Nat.mul_one]
    · intro hsrc
      have hv : ∀ s ∈ stmts, (stmtRow cw s).getD j 0 = 0 := by
        intro s hs
        rw [stmtRow_getD cw s j hj, countSource_of_single s src _ (hall s hs),
          beq_eq_false_iff_ne.mpr (fun h => hsrc h.symm)]
        simp
      rw [stmts_to_matrix, colSum_map_of_const _ _ _ 0 hv, Nat.mul_zero]
  · intro cw stmts h1 h2 r hr
    rcases List.mem_map.mp hr with ⟨s, hs, rfl⟩
    simp [stmtRow, h1, h2, oneHotType]
  · intro cw stmts h1 h2 r hr
    rcases List.mem_map.mp hr with ⟨s, hs, rfl⟩
    simp [stmtRow, h1, h2]

/-- Witness for C8: on the signor-only fixture statement and the
reach/sparser/signor model, the signor column of the matrix sums to the
number of statements and the reach column to 0. -/
theorem c8_stmts_to_matrix_witness :
    colSum (stmts_to_matrix cwSig [stSig]) 2 = 1 ∧
    colSum (stmts_to_matrix cwSig [stSig]) 0 = 0 := by
  constructor
  · exact (c8_stmts_to_matrix.2.2.2.1 cwSig [stSig] "signor" 2 (by decide)
      (by decide)).1 (by decide)
  · exact (c8_stmts_to_matrix.2.2.2.1 cwSig [stSig] "signor" 0 (by decide)
      (by decide)).2 (by decide)

/-- Claim C10: converting or fitting a statement DataFrame fails when a
required column is missing, when the DataFrame has neither a
source_counts column nor one column per model source, or when the model
was built with `use_num_members`; it succeeds on a DataFrame with all
required columns plus source_counts, or with per-source columns
substituting for source_counts.  The concrete instances mirror the
sklearn test suite: the test DataFrame converts, dropping agB_ns fails,
fitting without source_counts fails unless per-source columns are added,
and a `use_num_members` model rejects the DataFrame. -/
theorem c10_df_to_matrix :
    (∀ cw df, cw.use_num_members = true →
        ∃ e, df_to_matrix cw df = Except.error e) ∧
    (∀ (cw : CountsModel) (df : StmtDataFrame), cw.use_num_members = false →
        df.cols.contains "agB_ns" = false →
        ∃ e, df_to_matrix cw df = Except.error e) ∧
    (∀ (cw : CountsModel) (df : StmtDataFrame), cw.use_num_members = false →
        required_cols.all (fun c => df.cols.contains c) = true →
        df.cols.contains "source_counts" = false →
        cw.source_list.all (fun src => df.cols.contains src) = false →
        ∃ e, df_to_matrix cw df = Except.error e) ∧
    (∀ (cw : CountsModel) (df : StmtDataFrame), cw.use_num_members = false →
        required_cols.all (fun c => df.cols.contains c) = true →
        df.cols.contains "source_counts" = true →
        ∃ m, df_to_matrix cw df = Except.ok m) ∧
    (∀ (cw : CountsModel) (df : StmtDataFrame), cw.use_num_members = false →
        required_cols.all (fun c => df.cols.contains c) = true →
        cw.source_list.all (fun src => df.cols.contains src) = true →
        ∃ m, df_to_matrix cw df = Except.ok m) ∧
    (∀ cw df m, df_to_matrix cw df = Except.ok m →
        cw.fit_df df = Except.ok ()) ∧
    exOk (CountsModel.fit_df cwSrc2 test_df) = true ∧
    exOk (df_to_matrix cwSrc2 (dropCol test_df "agB_ns")) = false ∧
    exOk (CountsModel.fit_df cwSrc2 (dropCol test_df "source_counts"))
        = false ∧
    exOk (CountsModel.fit_df cwSrc2
        (addCols (dropCol test_df "source_counts") ["reach", "sparser"]))
        = true ∧
    exOk (df_to_matrix cwNm test_df) = false := by
  refine ⟨?_, ?_, ?_, ?_, ?_, ?_, by decide, by decide, by decide, by decide,
    by decide⟩
  · intro cw df h
    refine ⟨"use_num_members not supported for DataFrame", ?_⟩
    rw [df_to_matrix, h, if_pos rfl]
  · intro cw df h hB
    have hall : required_cols.all (fun c => df.cols.contains c) = false := by
      rw [List.all_eq_false]
      exact ⟨"agB_ns", by simp [required_cols], by simpa using hB⟩
    refine ⟨"DataFrame is missing required columns", ?_⟩
    rw [df_to_matrix, h, if_neg (by simp), hall, if_pos rfl]
  · intro cw df h hreq hsc hsrc
    refine ⟨"DataFrame has no source_counts and no source columns", ?_⟩
    rw [df_to_matrix, h, if_neg (by simp), hreq, if_neg (by simp), hsc, hsrc,
      Bool.or_self, if_pos rfl]
  · intro cw df h hreq hsc
    refine ⟨df.src_counts.map (fun row =>
      cw.source_list.map (fun src =>
        ((row.find? (fun p => p.1 == src)).map (fun p => p.2)).getD 0)), ?_⟩
    rw [df_to_matrix, h, if_neg (by simp), hreq, if_neg (by simp), hsc,
      if_neg (by simp)]
  · intro cw df h hreq hsrc
    refine ⟨df.src_counts.map (fun row =>
      cw.source_list.map (fun src =>
        ((row.find? (fun p => p.1 == src)).map (fun p => p.2)).getD 0)), ?_⟩
    rw [df_to_matrix, h, if_neg (by simp), hreq, if_neg (by simp), hsrc,
      Bool.or_true, if_neg (by simp)]
  · intro cw df m hm
    rw [CountsModel.fit_df, hm]
    rfl

/-- Witness for C10: applying the claim theorem at the concrete
`use_num_members` model and test DataFrame yields the conversion error. -/
theorem c10_df_to_matrix_witness :
    ∃ e, df_to_matrix cwNm test_df = Except.error e :=
  c10_df_to_matrix.1 cwNm test_df (by decide)

/-- Counterexample to C3 as stated: under policy `all` with only the
incorrect curation `cur1`, `new_st1` is retained unchanged and still
carries `evAB` even though `evAB` is judged incorrect, so evidence judged
incorrect is not removed from a statement that has no correctly-curated
evidence. -/
theorem c3_filter_by_curation_cex :
    evIncorrect [cur1] new_st1 evAB = true ∧
    filter_by_curation [new_st1, st2, st3] [cur1] "all" false
        = [new_st1, st2, st3] ∧
    evAB ∈ ((filter_by_curation [new_st1, st2, st3] [cur1] "all"
        false).getD 0 default).evidence := by
  decide

/-- Claim C3 (amended): `filter_by_curation` removes the evidences judged
incorrect (a correct curation cancelling an incorrect one on the same
evidence) from each retained statement that has at least one
correctly-curated evidence, while a retained statement with no
correctly-curated evidence keeps its evidence list unchanged; a statement
is dropped under policy `any` exactly when some evidence has an
uncancelled incorrect curation and no evidence of the statement is
curated correct, and under policy `all` exactly when it has evidence and
every evidence is judged incorrect; a statement with no curated-incorrect
evidence is always kept, and a statement all of whose own evidences are
incorrect is dropped even when a correct curation exists for evidence not
attached to it. -/
theorem c3_filter_by_curation :
    (∀ curs (s : Statement), keepByCuration curs "any" s = false ↔
        (∃ e ∈ s.evidence, evIncorrect curs s e = true) ∧
        (∀ e ∈ s.evidence, evCorrect curs s e = false)) ∧
    (∀ curs (s : Statement), keepByCuration curs "all" s = false ↔
        s.evidence ≠ [] ∧ ∀ e ∈ s.evidence, evIncorrect curs s e = true) ∧
    (∀ curs ub (s : Statement),
        (s.evidence.any (evCorrect curs s) = true →
          (updateByCuration curs ub s).evidence =
            s.evidence.filter (fun e => !(evIncorrect curs s e))) ∧
        (s.evidence.any (evCorrect curs s) = false →
          (updateByCuration curs ub s).evidence = s.evidence)) ∧
    (∀ curs pol (s : Statement), s.evidence ≠ [] →
        (∀ e ∈ s.evidence, evIncorrect curs s e = false) →
        keepByCuration curs pol s = true) ∧
    (∀ stmts curs pol ub (s : Statement), s ∈ stmts →
        keepByCuration curs pol s = true →
        updateByCuration curs ub s ∈ filter_by_curation stmts curs pol ub) ∧
    filter_by_curation [new_st1, st2, st3] [cur1] "any" false
        = [st2, st3] ∧
    filter_by_curation [new_st1, st2, st3] [cur1, cur2] "all" false
        = [st2, st3] ∧
    filter_by_curation [new_st1, st2, st3] [cur1, cur2, cur3, cur4] "all"
        false = [{ new_st1 with evidence := [evAB] }, st2, st3] ∧
    filter_by_curation [new_st1] [cur1, cur2, extCur] "any" false = [] ∧
    filter_by_curation [new_st1_ext] [cur1, cur2, extCur] "any" false
        = [{ new_st1_ext with evidence := [evExt] }] := by
  refine ⟨?_, ?_, ?_, ?_, ?_, by decide, by decide, by decide, by decide,
    by decide⟩
  · intro curs s
    simp [keepByCuration, List.any_eq_true, List.any_eq_false]
  · intro curs s
    have hne : (("all" : String) == "any") = false := by decide
    simp [keepByCuration, hne, List.all_eq_true,
      List.isEmpty_iff, List.any_eq_true]
  · intro curs ub s
    constructor
    · intro h
      simp [updateByCuration, h]
    · intro h
      simp [updateByCuration, h]
  · intro curs pol s hne hinc
    have hany : s.evidence.any (evIncorrect curs s) = false :=
      List.any_eq_false.mpr (by simpa using hinc)
    rcases hpol : (pol == "any") with _ | _
    · obtain ⟨e, he⟩ := List.exists_mem_of_ne_nil _ hne
      have hall : s.evidence.all (evIncorrect curs s) = false := by
        rw [List.all_eq_false]
        exact ⟨e, he, by simp [hinc e he]⟩
      simp [keepByCuration, hpol, hall]
    · simp [keepByCuration, hpol, hany]
  · intro stmts curs pol ub s hsm hkeep
    exact List.mem_map.mpr ⟨s, List.mem_filter.mpr ⟨hsm, hkeep⟩, rfl⟩

/-- Witness for C3: the uncurated statement `st3` is kept by the filter,
obtained by applying the claim theorem at this concrete input. -/
theorem c3_filter_by_curation_witness :
    updateByCuration [cur1] false st3 ∈
      filter_by_curation [st3] [cur1] "any" false :=
  c3_filter_by_curation.2.2.2.2.1 [st3] [cur1] "any" false st3 (by decide)
    (by decide)

/-- Claim C6: with `update_belief = true` every retained statement with a
correctly-curated evidence gets belief exactly 1 while the other retained
statements keep their previous belief, and with `update_belief = false`
no belief changes; concretely, the curation-test call yields beliefs
[1, 1, 0.7] with updating and [0.9, 0.8, 0.7] without. -/
theorem c6_filter_by_curation_belief :
    (∀ stmts curs pol,
        (filter_by_curation stmts curs pol false).map Statement.belief =
          (stmts.filter (keepByCuration curs pol)).map Statement.belief) ∧
    (∀ stmts curs pol,
        (filter_by_curation stmts curs pol true).map Statement.belief =
          (stmts.filter (keepByCuration curs pol)).map
            (fun s => if s.evidence.any (evCorrect curs s) then mkRat 1 1
                      else s.belief)) ∧
    (filter_by_curation [new_st1, st2, st3] [cur1, cur2, cur3, cur4] "all"
        true).map Statement.belief
      = [mkRat 1 1, mkRat 1 1, mkRat 7 10] ∧
    (filter_by_curation [new_st1, st2, st3] [cur1, cur2, cur3, cur4] "all"
        false).map Statement.belief
      = [mkRat 9 10, mkRat 8 10, mkRat 7 10] := by
  refine ⟨?_, ?_, by decide, by decide⟩
  · intro stmts curs pol
    rw [filter_by_curation, List.map_map]
    rfl
  · intro stmts curs pol
    rw [filter_by_curation, List.map_map]
    rfl

/-- Claim C4: for every agent whose db_refs carry a TEXT entry present in
the grounding map, `map_grounding` adds the mapped standard identifiers
to the agent's db_refs and renames the agent to the standardized name
exactly when `do_rename` is set; agents without a mapped TEXT entry are
untouched.  Concretely, MEK and ERK mentions gain their FPLX groundings,
the agent named X stays X without renaming and becomes ERK with it, and a
user-supplied map substitutes for the default one. -/
theorem c4_map_grounding :
    (∀ gm dr (a : Agent) t refs,
        lookupRef "TEXT" a.db_refs = some t →
        (gm.find? (fun p => p.1 == t)).map (fun p => p.2) = some refs →
        (∀ p ∈ refs, p ∈ (mapAgentGrounding gm dr a).db_refs) ∧
        (mapAgentGrounding gm dr a).name =
          (if dr then standardName refs a.name else a.name)) ∧
    (∀ gm dr (a : Agent), lookupRef "TEXT" a.db_refs = none →
        mapAgentGrounding gm dr a = a) ∧
    (map_grounding [stMG] grounding_map_default false).map
        (fun s => (lookupRef "FPLX" s.sub.db_refs, s.sub.name,
          s.enz.map (fun a => (lookupRef "FPLX" a.db_refs, a.name))))
      = [(some "ERK", "X", some (some "MEK", "MEK"))] ∧
    (map_grounding [stMG] grounding_map_default true).map
        (fun s => (lookupRef "FPLX" s.sub.db_refs, s.sub.name))
      = [(some "ERK", "ERK")] ∧
    (map_grounding [stMG] gmUser true).map
        (fun s => (lookupRef "FPLX" s.sub.db_refs, s.sub.name,
          s.enz.map (fun a => lookupRef "XXX" a.db_refs)))
      = [(some "ERK", "ERK", some (some "YYY"))] := by
  refine ⟨?_, ?_, by decide, by decide, by decide⟩
  · intro gm dr a t refs ht href
    simp only [mapAgentGrounding, ht, href]
    exact ⟨fun p hp => List.mem_append_right _ hp, trivial⟩
  · intro gm dr a h
    simp [mapAgentGrounding, h]

/-- Witness for C4: applying the claim theorem to the MEK fixture agent
and the default grounding map, the FPLX entry is added and the name is
kept (renaming disabled). -/
theorem c4_map_grounding_witness :
    ("FPLX", "MEK") ∈
        (mapAgentGrounding grounding_map_default false agMEK).db_refs ∧
    (mapAgentGrounding grounding_map_default false agMEK).name =
        (if false then standardName [("FPLX", "MEK")] agMEK.name
         else agMEK.name) := by
  have h := c4_map_grounding.1 grounding_map_default false agMEK "MEK"
    [("FPLX", "MEK")] (by decide) (by decide)
  exact ⟨h.1 ("FPLX", "MEK") (by decide), h.2⟩

/-- An agent without modification conditions is mapped to itself by the
sequence mapper. -/
theorem mapAgentSeq_no_mods (a : Agent) (h : a.mods = []) :
    mapAgentSeq a = some a := by
  cases a with
  | mk n refs mods =>
    simp only at h
    subst h
    rfl

/-- Claim C5: `map_sequence` maps each modification site known to be
invalid for the grounded protein to its curated correct position, and
removes every statement carrying a site that is invalid and has no
curated mapping (absent from the curated map, or curated as erroneous
with a blank entry).  Concretely, MAPK1 T182 becomes T185, T185 passes
unchanged, Y999 is dropped, and both blank-entry statements (target site
and agent modification site) are dropped. -/
theorem c5_map_sequence :
    (∀ (s : Statement) u r p r2 p2,
        s.enz = none → s.sub.mods = [] →
        lookupRef "UP" s.sub.db_refs = some u →
        s.residue = some r → s.position = some p →
        mapSite (u, r, p) = some (r2, p2) →
        map_sequence [s]
          = [{ s with residue := some r2, position := some p2 }]) ∧
    (∀ (s : Statement) u r p,
        s.enz = none → s.sub.mods = [] →
        lookupRef "UP" s.sub.db_refs = some u →
        s.residue = some r → s.position = some p →
        mapSite (u, r, p) = none →
        map_sequence [s] = []) ∧
    map_sequence [stT182] = [{ stT182 with position := some "185" }] ∧
    map_sequence [stT185] = [stT185] ∧
    map_sequence [stY999] = [] ∧
    map_sequence [stBlank1, stBlank2] = [] := by
  refine ⟨?_, ?_, by decide, by decide, by decide, by decide⟩
  · intro s u r p r2 p2 henz hmods hu hres hpos hsite
    have hstep : mapStmtSeq s
        = some { s with residue := some r2, position := some p2 } := by
      simp only [mapStmtSeq, henz, mapAgentSeq_no_mods s.sub hmods, hu, hres,
        hpos, hsite]
    simp [map_sequence, hstep]
  · intro s u r p henz hmods hu hres hpos hsite
    have hstep : mapStmtSeq s = none := by
      simp only [mapStmtSeq, henz, mapAgentSeq_no_mods s.sub hmods, hu, hres,
        hpos, hsite]
    simp [map_sequence, hstep]

/-- Witness for C5: applying the claim theorem at the T182 fixture maps
its position to 185, and at the Y999 fixture drops the statement. -/
theorem c5_map_sequence_witness :
    map_sequence [stT182]
        = [{ stT182 with residue := some "T", position := some "185" }] ∧
    map_sequence [stY999] = [] := by
  constructor
  · exact c5_map_sequence.1 stT182 "P28482" "T" "182" "T" "185" rfl rfl
      (by decide) rfl rfl (by decide)
  · exact c5_map_sequence.2.1 stY999 "P28482" "Y" "999" rfl rfl (by decide)
      rfl rfl (by decide)

/-- Decoding a mapped-encoded list recovers the list whenever decoding
recovers each element. -/
theorem decListWith_enc {α : Type} (f : α → PVal) (g : PVal → Option α)
    (h : ∀ a, g (f a) = some a) (l : List α) :
    decListWith g (l.map f) = some l := by
  induction l with
  | nil => rfl
  | cons a tl ih => simp [decListWith, h, ih]

/-- Round trip for db_refs entries. -/
theorem decPair_enc (p : String × String) : decPair (encPair p) = some p :=
  rfl

/-- Round trip for optional strings. -/
theorem decOptStr_enc (o : Option String) :
    decOptStr (encOptStr o) = some o := by
  cases o <;> rfl

/-- Round trip for modification conditions. -/
theorem decMod_enc (m : ModCondition) : decMod (encMod m) = some m := by
  cases m with
  | mk t r p b => cases r <;> cases p <;> rfl

/-- Round trip for evidences. -/
theorem decEv_enc (e : Evidence) : decEv (encEv e) = some e := by
  cases e
  rfl

/-- Round trip for rational beliefs. -/
theorem decRat_enc (q : ℚ) : decRat (encRat q) = some q := by
  simp [encRat, decRat, Rat.mkRat_self]

/-- Round trip for naturals. -/
theorem decNat_enc (n : Nat) : decNat (PVal.pnat n) = some n := rfl

/-- Round trip for agents. -/
theorem decAgent_enc (a : Agent) : decAgent (encAgent a) = some a := by
  cases a with
  | mk n refs mods =>
    simp [encAgent, decAgent, decListWith_enc _ _ decPair_enc,
      decListWith_enc _ _ decMod_enc]

/-- Round trip for optional agents. -/
theorem decOptAgent_enc (o : Option Agent) :
    decOptAgent (encOptAgent o) = some o := by
  cases o with
  | none => rfl
  | some a => simp [encOptAgent, decOptAgent, decAgent_enc]

/-- Round trip for statements. -/
theorem decStmt_enc (s : Statement) : decStmt (encStmt s) = some s := by
  cases s with
  | mk t enz sub r p ev b sup supb =>
    simp [encStmt, decStmt, decOptAgent_enc, decAgent_enc, decOptStr_enc,
      decListWith_enc _ _ decEv_enc, decRat_enc,
      decListWith_enc _ _ decNat_enc]

/-- A pair drawn from the zip of a list with itself has equal
components. -/
theorem mem_zip_same {α : Type} (l : List α) (pr : α × α)
    (h : pr ∈ l.zip l) : pr.1 = pr.2 := by
  induction l with
  | nil => simp at h
  | cons a tl ih =>
    rw [List.zip_cons_cons] at h
    rcases List.mem_cons.mp h with h1 | h1
    · rw [h1]
    · exact ih h1

/-- Claim C9: dumping any statement list and loading it back yields the
very same list, hence a list of the same length whose i-th statement
equals (by `Statement.equals`) the i-th input statement. -/
theorem c9_dump_load :
    ∀ stmts : List Statement,
      load_statements (dump_statements stmts) = some stmts ∧
      ∃ out, load_statements (dump_statements stmts) = some out ∧
        out.length = stmts.length ∧
        ∀ pr ∈ out.zip stmts, Statement.equals pr.1 pr.2 = true := by
  intro stmts
  have h : load_statements (dump_statements stmts) = some stmts := by
    simp [dump_statements, load_statements,
      decListWith_enc _ _ decStmt_enc]
  refine ⟨h, stmts, h, rfl, ?_⟩
  intro pr hpr
  simp [Statement.equals, mem_zip_same stmts pr hpr]

end Indra
